import Mathlib

set_option autoImplicit false

/-!
Verification of the MAVSDK logging facility (`src/mavsdk/core/log.h`).

The file shallowly embeds the header's logging machinery:

* `LogLevel`, `Color` — the `log::Level` and `mavsdk::Color` enumerations.
* `LogDetailed` — the scope-bound log record: level, accumulated message
  buffer (`_s`), caller file name and caller line number.
* `destructorTrace` — the sequence of observable operations performed by
  `LogDetailed::~LogDetailed()`: the optional interception-callback call,
  `set_color` calls, the lock/unlock pair performed inside each
  `get_log_stream()` call, the individual stream insertions, and the final
  flush.  The trace is parameterised by the registered callback (if any),
  by whether the `ANDROID` branch is compiled, and by the wall-clock time
  that `strftime("%I:%M:%S")` would render.
* `runLock` — an interpreter for the lock/unlock events of a trace against
  a single non-recursive mutex owned by the tracing thread, reporting a
  re-entrant acquisition (undefined behaviour on `std::mutex`).
* `SinkState`, `set_log_file`, `get_log_stream`, `writeStream` — the sink
  manager: the static `std::ofstream log_file` (modelled by the optional
  open path plus per-path file contents), `std::cout` (modelled by the
  accumulated console text), and the environment's set of openable paths.
  `std::ofstream::open` on an already-open stream fails and leaves the old
  file open; opening in `std::ios::app` mode preserves existing contents.
* `FILENAME` — the non-Windows `FILENAME` macro built on
  `__builtin_strrchr(path, '/')`.
-/

inductive LogLevel
| Debug
| Info
| Warn
| Err
deriving DecidableEq

inductive Color
| Red
| Green
| Yellow
| Blue
| Gray
| Reset
deriving DecidableEq

inductive AndroidPriority
| debug
| info
| warn
| error
deriving DecidableEq

/-- The colour chosen by the first `switch` of `~LogDetailed()`
(Debug→Green, Info→Blue, Warn→Yellow, Err→Red). -/
def levelColor : LogLevel → Color
| LogLevel.Debug => Color.Green
| LogLevel.Info => Color.Blue
| LogLevel.Warn => Color.Yellow
| LogLevel.Err => Color.Red

/-- The literal written by the second `switch` of `~LogDetailed()`
(`"|Debug] "`, `"|Info ] "`, `"|Warn ] "`, `"|Error] "`). -/
def levelTag : LogLevel → String
| LogLevel.Debug => "|Debug] "
| LogLevel.Info => "|Info ] "
| LogLevel.Warn => "|Warn ] "
| LogLevel.Err => "|Error] "

/-- The level label as the spec describes it: the fixed-width string
between the `|` and the `] ` of the formatted line. -/
def levelLabel : LogLevel → String
| LogLevel.Debug => "Debug"
| LogLevel.Info => "Info "
| LogLevel.Warn => "Warn "
| LogLevel.Err => "Error"

/-- The `__android_log_print` priority chosen by the `ANDROID` branch. -/
def androidPriority : LogLevel → AndroidPriority
| LogLevel.Debug => AndroidPriority.debug
| LogLevel.Info => AndroidPriority.info
| LogLevel.Warn => AndroidPriority.warn
| LogLevel.Err => AndroidPriority.error

/-- The hour rendered by `strftime` with format `%I` (12-hour clock,
01–12) for an hour-of-day `h` (0–23). -/
def hour12 (h : Nat) : Nat := (h + 11) % 12 + 1

/-- Zero-padded two-digit rendering used by `%I`, `%M` and `%S`. -/
def twoDigits (n : Nat) : String := if n < 10 then "0" ++ toString n else toString n

/-- The `time_buffer` contents produced by
`strftime(time_buffer, sizeof(time_buffer), "%I:%M:%S", timeinfo)`
for wall-clock time `hh:mm:ss` (with `hh` an hour of day, 0–23). -/
def timeString (hh mm ss : Nat) : String :=
twoDigits (hour12 hh) ++ ":" ++ twoDigits mm ++ ":" ++ twoDigits ss

/-- The log record of `class LogDetailed`: severity level, accumulated
message buffer, caller file name and caller line number. -/
structure LogDetailed where
  _log_level : LogLevel
  _s : String
  _caller_filename : String
  _caller_filenumber : Int
deriving DecidableEq

/-- `LogDetailed::LogDetailed(filename, filenumber)` with the default
level `log::Level::Debug`; the member `_lock_guard(log_mutex_)` is
accounted for by the `lockAcquire`/`lockRelease` events of
`statementTrace`. -/
def LogDetailed.mkRecord (filename : String) (filenumber : Int) : LogDetailed :=
⟨LogLevel.Debug, "", filename, filenumber⟩

/-- `LogDebugDetailed(filename, filenumber)`. -/
def LogDebugDetailed (filename : String) (filenumber : Int) : LogDetailed :=
{ LogDetailed.mkRecord filename filenumber with _log_level := LogLevel.Debug }

/-- `LogInfoDetailed(filename, filenumber)`. -/
def LogInfoDetailed (filename : String) (filenumber : Int) : LogDetailed :=
{ LogDetailed.mkRecord filename filenumber with _log_level := LogLevel.Info }

/-- `LogWarnDetailed(filename, filenumber)`. -/
def LogWarnDetailed (filename : String) (filenumber : Int) : LogDetailed :=
{ LogDetailed.mkRecord filename filenumber with _log_level := LogLevel.Warn }

/-- `LogErrDetailed(filename, filenumber)`. -/
def LogErrDetailed (filename : String) (filenumber : Int) : LogDetailed :=
{ LogDetailed.mkRecord filename filenumber with _log_level := LogLevel.Err }

/-- `LogDetailed::operator<<(x)` with `x` already converted to its text
form: appends to the `std::stringstream _s`. -/
def LogDetailed.insert (r : LogDetailed) (x : String) : LogDetailed :=
{ r with _s := r._s ++ x }

/-- The interception function held by the callback registry:
`(level, message, file, line) → handled`. -/
def LogCallback : Type := LogLevel → String → String → Int → Bool

/-- One observable operation performed during a log record's lifetime. -/
inductive Event
| lockAcquire
| lockRelease
| callbackInvoke (lvl : LogLevel) (msg : String) (file : String) (line : Int) (handled : Bool)
| setColor (c : Color)
| streamWrite (s : String)
| platformLog (p : AndroidPriority) (tag : String) (msg : String)
| flush
deriving DecidableEq

/-- The non-`ANDROID` output path of `~LogDetailed()`: colour switch,
timestamp, level tag, colour reset, message, `(file:line)` suffix,
newline, flush.  Each `get_log_stream()` call internally constructs and
destroys a `std::lock_guard<std::mutex>` on `log_mutex_`, modelled by a
`lockAcquire`/`lockRelease` pair preceding the insertions done on the
returned stream. -/
def consolePath (r : LogDetailed) (hh mm ss : Nat) : List Event :=
[Event.setColor (levelColor r._log_level),
 Event.lockAcquire, Event.lockRelease,
 Event.streamWrite "[", Event.streamWrite (timeString hh mm ss),
 Event.lockAcquire, Event.lockRelease,
 Event.streamWrite (levelTag r._log_level),
 Event.setColor Color.Reset,
 Event.lockAcquire, Event.lockRelease,
 Event.streamWrite r._s,
 Event.lockAcquire, Event.lockRelease,
 Event.streamWrite " (", Event.streamWrite r._caller_filename,
 Event.streamWrite ":", Event.streamWrite (toString r._caller_filenumber),
 Event.streamWrite ")",
 Event.lockAcquire, Event.lockRelease,
 Event.streamWrite "\n",
 Event.lockAcquire, Event.lockRelease,
 Event.flush]

/-- The `ANDROID` output path of `~LogDetailed()`: one
`__android_log_print` with tag `"Mavsdk"` and the message only. -/
def androidPath (r : LogDetailed) : List Event :=
[Event.platformLog (androidPriority r._log_level) "Mavsdk" r._s]

/-- The output path taken when the callback does not handle the record:
the `ANDROID` branch or the console/file branch, per the `#if ANDROID`
preprocessor switch. -/
def normalPath (android : Bool) (r : LogDetailed) (hh mm ss : Nat) : List Event :=
if android then androidPath r else consolePath r hh mm ss

/-- The operations of `~LogDetailed()`: if a callback is registered it is
invoked with `(level, _s.str(), file, line)` and a `true` result returns
immediately; otherwise the normal output path runs. -/
def destructorTrace (cb : Option LogCallback) (android : Bool) (r : LogDetailed)
    (hh mm ss : Nat) : List Event :=
match cb with
| none => normalPath android r hh mm ss
| some f =>
  if f r._log_level r._s r._caller_filename r._caller_filenumber then
    [Event.callbackInvoke r._log_level r._s r._caller_filename r._caller_filenumber true]
  else
    Event.callbackInvoke r._log_level r._s r._caller_filename r._caller_filenumber false ::
      normalPath android r hh mm ss

/-- The operations of a whole log statement: the record's constructor
acquires `log_mutex_` through the member `_lock_guard`, the destructor
runs, and the member `_lock_guard` releases the mutex at scope exit. -/
def statementTrace (cb : Option LogCallback) (android : Bool) (r : LogDetailed)
    (hh mm ss : Nat) : List Event :=
Event.lockAcquire :: destructorTrace cb android r hh mm ss ++ [Event.lockRelease]

inductive LockErr
| doubleAcquire
| releaseUnheld
deriving DecidableEq

/-- Interprets a trace's lock events against the single non-recursive
`log_mutex_`, from the point of view of the one thread executing the
trace (`held` is whether that thread already owns the mutex).  Acquiring
a `std::mutex` already held by the caller is undefined behaviour
(in practice a self-deadlock), reported as `doubleAcquire`. -/
def runLock : Bool → List Event → Except LockErr Bool
| held, [] => Except.ok held
| held, Event.lockAcquire :: rest =>
  if held then Except.error LockErr.doubleAcquire else runLock true rest
| held, Event.lockRelease :: rest =>
  if held then runLock false rest else Except.error LockErr.releaseUnheld
| held, _ :: rest => runLock held rest

inductive SinkOp
| write (s : String)
| flushOp
deriving DecidableEq

/-- The operations a trace performs on the stream returned by
`get_log_stream()`. -/
def sinkOps : List Event → List SinkOp :=
List.filterMap fun e =>
  match e with
  | Event.streamWrite s => some (SinkOp.write s)
  | Event.flush => some SinkOp.flushOp
  | _ => none

/-- The strings a trace inserts into the stream returned by
`get_log_stream()`, in order. -/
def sinkWrites : List Event → List String :=
List.filterMap fun e =>
  match e with
  | Event.streamWrite s => some s
  | _ => none

def concatAll : List String → String
| [] => ""
| x :: rest => x ++ concatAll rest

/-- The total text a trace writes to the active sink. -/
def sinkText (tr : List Event) : String := concatAll (sinkWrites tr)

def isStreamWrite : Event → Bool
| Event.streamWrite _ => true
| _ => false

/-- `true` iff no sink insertion happens after the first
`set_color(Color::Reset)` of the trace — the property a dispatch would
have if the colour reset came only after the complete line. -/
def noWriteAfterReset : List Event → Bool
| [] => true
| Event.setColor Color.Reset :: rest => rest.all fun e => !isStreamWrite e
| _ :: rest => noWriteAfterReset rest

/-- The process-wide sink state of `log.h`: the static
`std::ofstream log_file` (its open path, if any), the contents of every
file on disk, the set of paths the environment lets `open` succeed on,
and the text accumulated on `std::cout`. -/
structure SinkState where
  fileOpenPath : Option String
  fileContents : String → String
  writable : List String
  consoleOut : String

/-- The notice `std::cout << "Failed to open log file: " << file_path << std::endl`. -/
def failNotice (file_path : String) : String :=
"Failed to open log file: " ++ file_path ++ "\n"

/-- The notice `std::cout << "Opened log file: " << file_path << std::endl`. -/
def openNotice (file_path : String) : String :=
"Opened log file: " ++ file_path ++ "\n"

/-- `mavsdk::set_log_file(file_path)`: calls
`log_file.open(file_path, std::ios::out | std::ios::app)` — which fails
when the stream is already open (keeping the old file open) and
otherwise succeeds exactly when the environment can open the path,
preserving existing contents (append mode) — then prints the failure
notice if `!log_file.is_open()`, then unconditionally prints the success
notice. -/
def set_log_file (st : SinkState) (file_path : String) : SinkState :=
let stOpened :=
  match st.fileOpenPath with
  | some _ => st
  | none =>
    if file_path ∈ st.writable then { st with fileOpenPath := some file_path } else st
let stNoticed :=
  if stOpened.fileOpenPath.isSome then stOpened
  else { stOpened with consoleOut := stOpened.consoleOut ++ failNotice file_path }
{ stNoticed with consoleOut := stNoticed.consoleOut ++ openNotice file_path }

/-- The stream reference returned by `get_log_stream()`. -/
inductive StreamRef
| console
| file (path : String)
deriving DecidableEq

/-- `mavsdk::get_log_stream()`: the `log_file` stream if it is open,
otherwise `std::cout`. -/
def get_log_stream (st : SinkState) : StreamRef :=
match st.fileOpenPath with
| some p => StreamRef.file p
| none => StreamRef.console

/-- One insertion into the stream returned by `get_log_stream()`:
appended to the open log file if there is one, else to the console. -/
def writeStream (st : SinkState) (txt : String) : SinkState :=
match st.fileOpenPath with
| some p =>
  { st with fileContents := fun q => if q = p then st.fileContents p ++ txt else st.fileContents q }
| none => { st with consoleOut := st.consoleOut ++ txt }

/-- Runs a trace's sink insertions against the sink state (flushes do
not change the state). -/
def applyEvents (st : SinkState) (tr : List Event) : SinkState :=
tr.foldl
  (fun acc e =>
    match e with
    | Event.streamWrite txt => writeStream acc txt
    | _ => acc)
  st

/-- The suffix of the character list after its last `'/'`, if any:
`__builtin_strrchr(path, '/')` advanced by one. -/
def strrchrSuffix : List Char → Option (List Char)
| [] => none
| c :: rest =>
  match strrchrSuffix rest with
  | some r => some r
  | none => if c = '/' then some rest else none

/-- The non-Windows `FILENAME` macro:
`__builtin_strrchr(__FILE__, '/') ? __builtin_strrchr(__FILE__, '/') + 1 : __FILE__`. -/
def FILENAME (p : String) : String :=
match strrchrSuffix p.data with
| some r => String.mk r
| none => p

theorem strrchrSuffix_none_of_not_mem (l : List Char) (h : '/' ∉ l) :
    strrchrSuffix l = none := by
  induction l with
  | nil => rfl
  | cons c rest ih =>
    have hc : ¬(c = '/') := fun he => h (by simp [he])
    have hr : '/' ∉ rest := fun hm => h (List.mem_cons_of_mem c hm)
    simp [strrchrSuffix, ih hr, hc]

theorem not_mem_of_strrchrSuffix_none (l : List Char) (h : strrchrSuffix l = none) :
    '/' ∉ l := by
  induction l with
  | nil => simp
  | cons c rest ih =>
    intro hm
    unfold strrchrSuffix at h
    cases he : strrchrSuffix rest with
    | some r => rw [he] at h; cases h
    | none =>
      rw [he] at h
      by_cases hc : c = '/'
      · simp [hc] at h
      · rcases List.mem_cons.mp hm with h1 | h2
        · exact hc h1.symm
        · exact ih he h2

theorem strrchrSuffix_some_spec (l : List Char) (r : List Char)
    (h : strrchrSuffix l = some r) : ∃ t1, l = t1 ++ '/' :: r ∧ '/' ∉ r := by
  induction l generalizing r with
  | nil => simp [strrchrSuffix] at h
  | cons c rest ih =>
    unfold strrchrSuffix at h
    cases he : strrchrSuffix rest with
    | some r2 =>
      rw [he] at h
      have hr : r2 = r := Option.some.inj h
      obtain ⟨t1, ht, hnm⟩ := ih r2 he
      exact ⟨c :: t1, by rw [ht, hr]; rfl, hr ▸ hnm⟩
    | none =>
      rw [he] at h
      by_cases hc : c = '/'
      · rw [if_pos hc] at h
        obtain rfl : rest = r := Option.some.inj h
        exact ⟨[], by simp [hc], not_mem_of_strrchrSuffix_none rest he⟩
      · rw [if_neg hc] at h
        cases h

/-- Claim C6: the captured source-file name is the call's file path with
all directory components stripped: `FILENAME "/a/b/c.cpp" = "c.cpp"`; a
path with no separator is returned unchanged; and in general the result
is the separator-free suffix after the last `'/'`. -/
theorem c6_filename_strips_directories :
    FILENAME "/a/b/c.cpp" = "c.cpp" ∧
    (∀ p : String, '/' ∉ p.data → FILENAME p = p) ∧
    (∀ p : String, '/' ∈ p.data →
      ∃ t1, p.data = t1 ++ '/' :: (FILENAME p).data ∧ '/' ∉ (FILENAME p).data) := by
  refine ⟨by decide, ?_, ?_⟩
  · intro p h
    unfold FILENAME
    rw [strrchrSuffix_none_of_not_mem p.data h]
  · intro p h
    unfold FILENAME
    cases he : strrchrSuffix p.data with
    | none => exact absurd h (not_mem_of_strrchrSuffix_none p.data he)
    | some r =>
      obtain ⟨t1, ht, hnm⟩ := strrchrSuffix_some_spec p.data r he
      exact ⟨t1, ht, hnm⟩

/-- Witness for C6 at the concrete separator-free input `"c.cpp"`. -/
theorem c6_filename_strips_directories_witness : FILENAME "c.cpp" = "c.cpp" :=
  c6_filename_strips_directories.2.1 "c.cpp" (by decide)

/-- The record produced by `LogInfo() << "starting"` at line 42 of
`engine.cpp` (after directory stripping). -/
def engineRecord : LogDetailed := (LogInfoDetailed "engine.cpp" 42).insert "starting"

/-- Claim C1 (code bug): a log statement that reaches the console/file
branch re-acquires `log_mutex_` inside `get_log_stream()` while the
record's own `_lock_guard` already holds it — `std::mutex` is not
recursive, so dispatch self-deadlocks (undefined behaviour) instead of
completing under the single lock acquired at construction. -/
theorem c1_dispatch_reacquires_held_mutex :
    runLock false (statementTrace none false engineRecord 10 30 0) =
      Except.error LockErr.doubleAcquire := by
  rfl

/-- Counterexample to claim C7: in the dispatch of `engineRecord`, sink
insertions (the message text, the `(file:line)` suffix and the newline)
occur after `set_color(Color::Reset)`, so the colour reset does not come
after the complete line. -/
theorem c7_reset_precedes_message_write :
    noWriteAfterReset (destructorTrace none false engineRecord 10 30 0) = false := by
  rfl

/-- Claim C7 as amended: dispatch sets the level colour, writes the `[`,
the timestamp and the level tag to the active sink, then resets the
colour, and only afterwards writes the message text, the `(file:line)`
suffix and the newline, finishing with the flush. -/
theorem c7_amended_reset_after_level_tag :
    ∀ (r : LogDetailed) (hh mm ss : Nat),
    ∃ t1 t2,
      destructorTrace none false r hh mm ss = t1 ++ Event.setColor Color.Reset :: t2 ∧
      t1.head? = some (Event.setColor (levelColor r._log_level)) ∧
      sinkWrites t1 = ["[", timeString hh mm ss, levelTag r._log_level] ∧
      sinkWrites t2 =
        [r._s, " (", r._caller_filename, ":", toString r._caller_filenumber, ")", "\n"] ∧
      t2.getLast? = some Event.flush := by
  intro r hh mm ss
  refine ⟨[Event.setColor (levelColor r._log_level),
      Event.lockAcquire, Event.lockRelease,
      Event.streamWrite "[", Event.streamWrite (timeString hh mm ss),
      Event.lockAcquire, Event.lockRelease,
      Event.streamWrite (levelTag r._log_level)],
    [Event.lockAcquire, Event.lockRelease,
      Event.streamWrite r._s,
      Event.lockAcquire, Event.lockRelease,
      Event.streamWrite " (", Event.streamWrite r._caller_filename,
      Event.streamWrite ":", Event.streamWrite (toString r._caller_filenumber),
      Event.streamWrite ")",
      Event.lockAcquire, Event.lockRelease,
      Event.streamWrite "\n",
      Event.lockAcquire, Event.lockRelease,
      Event.flush], rfl, rfl, rfl, rfl, rfl⟩

/-- An interception function that handles every record. -/
def handleAll : LogCallback := fun _ _ _ _ => true

/-- Claim C2: if the registered interception function reports the record
handled, dispatch performs no sink operation at all (its trace is the
callback invocation alone); if it reports it unhandled, or none is
registered, the normal output path runs. -/
theorem c2_interception_short_circuits :
    ∀ (f : LogCallback) (android : Bool) (r : LogDetailed) (hh mm ss : Nat),
    (f r._log_level r._s r._caller_filename r._caller_filenumber = true →
      destructorTrace (some f) android r hh mm ss =
        [Event.callbackInvoke r._log_level r._s r._caller_filename r._caller_filenumber true] ∧
      sinkOps (destructorTrace (some f) android r hh mm ss) = [] ∧
      sinkText (destructorTrace (some f) android r hh mm ss) = "") ∧
    (f r._log_level r._s r._caller_filename r._caller_filenumber = false →
      destructorTrace (some f) android r hh mm ss =
        Event.callbackInvoke r._log_level r._s r._caller_filename r._caller_filenumber false ::
          normalPath android r hh mm ss) ∧
    destructorTrace none android r hh mm ss = normalPath android r hh mm ss := by
  intro f android r hh mm ss
  refine ⟨?_, ?_, rfl⟩
  · intro h
    refine ⟨?_, ?_, ?_⟩ <;>
      simp [destructorTrace, h, sinkOps, sinkText, sinkWrites, concatAll]
  · intro h
    simp [destructorTrace, h]

/-- Witness for C2: with `handleAll` registered, dispatching
`engineRecord` produces the callback invocation alone and writes nothing
to the sink. -/
theorem c2_interception_short_circuits_witness :
    destructorTrace (some handleAll) false engineRecord 10 30 0 =
      [Event.callbackInvoke engineRecord._log_level engineRecord._s
        engineRecord._caller_filename engineRecord._caller_filenumber true] ∧
    sinkOps (destructorTrace (some handleAll) false engineRecord 10 30 0) = [] ∧
    sinkText (destructorTrace (some handleAll) false engineRecord 10 30 0) = "" :=
  (c2_interception_short_circuits handleAll false engineRecord 10 30 0).1 rfl

theorem levelTag_eq_label (lvl : LogLevel) : "|" ++ levelLabel lvl ++ "] " = levelTag lvl := by
  cases lvl <;> rfl

/-- Claim C3: on the console/file branch, the text a dispatch writes to
the active sink is exactly `[HH:MM:SS|<LevelLabel>] <message>
(<file>:<line>)` followed by a newline — with the fixed-width labels
`"Debug"`, `"Info "`, `"Warn "`, `"Error"` — and the last sink operation
is a flush immediately after the newline. -/
theorem c3_sink_line_format :
    ∀ (r : LogDetailed) (hh mm ss : Nat),
    sinkText (destructorTrace none false r hh mm ss) =
      "[" ++ timeString hh mm ss ++ ("|" ++ levelLabel r._log_level ++ "] ") ++ r._s ++
        " (" ++ r._caller_filename ++ ":" ++ toString r._caller_filenumber ++ ")" ++ "\n" ∧
    (levelLabel LogLevel.Debug = "Debug" ∧ levelLabel LogLevel.Info = "Info " ∧
      levelLabel LogLevel.Warn = "Warn " ∧ levelLabel LogLevel.Err = "Error") ∧
    ∃ t1, sinkOps (destructorTrace none false r hh mm ss) =
      t1 ++ [SinkOp.write "\n", SinkOp.flushOp] := by
  intro r hh mm ss
  refine ⟨?_, ⟨rfl, rfl, rfl, rfl⟩, ?_⟩
  · rw [levelTag_eq_label]
    simp [destructorTrace, normalPath, consolePath, sinkText, sinkWrites, concatAll,
      String.append_assoc, String.append_empty]
  · exact ⟨[SinkOp.write "[", SinkOp.write (timeString hh mm ss),
      SinkOp.write (levelTag r._log_level), SinkOp.write r._s,
      SinkOp.write " (", SinkOp.write r._caller_filename, SinkOp.write ":",
      SinkOp.write (toString r._caller_filenumber), SinkOp.write ")"], rfl⟩

/-- Claim C10: the timestamp of a formatted line uses the 12-hour clock
`%I:%M:%S` — the rendered hour is always in 01–12 — so a dispatch in an
afternoon hour produces exactly the same trace as one in the
corresponding morning hour. -/
theorem c10_twelve_hour_clock :
    ∀ (hh mm ss : Nat), hh < 24 →
    (1 ≤ hour12 hh ∧ hour12 hh ≤ 12) ∧
    (∀ r : LogDetailed, 12 ≤ hh →
      destructorTrace none false r hh mm ss = destructorTrace none false r (hh - 12) mm ss) := by
  intro hh mm ss h24
  constructor
  · unfold hour12; omega
  · intro r h12
    have hhour : hour12 hh = hour12 (hh - 12) := by unfold hour12; omega
    have ht : timeString hh mm ss = timeString (hh - 12) mm ss := by
      unfold timeString
      rw [hhour]
    simp [destructorTrace, normalPath, consolePath, ht]

/-- Witness for C10 at 15:30:00 — the trace equals the 03:30:00 trace
and the rendered hour (`03`) lies in 01–12. -/
theorem c10_twelve_hour_clock_witness :
    (1 ≤ hour12 15 ∧ hour12 15 ≤ 12) ∧
    destructorTrace none false engineRecord 15 30 0 =
      destructorTrace none false engineRecord 3 30 0 :=
  ⟨(c10_twelve_hour_clock 15 30 0 (by decide)).1,
   (c10_twelve_hour_clock 15 30 0 (by decide)).2 engineRecord (by decide)⟩

theorem applyEvents_console (tr : List Event) :
    ∀ st : SinkState, st.fileOpenPath = none →
    (applyEvents st tr).fileOpenPath = none ∧
    (applyEvents st tr).consoleOut = st.consoleOut ++ sinkText tr ∧
    (applyEvents st tr).fileContents = st.fileContents := by
  induction tr with
  | nil =>
    intro st h
    exact ⟨h, (String.append_empty st.consoleOut).symm, rfl⟩
  | cons e rest ih =>
    intro st h
    cases e with
    | streamWrite txt =>
      have hstep : applyEvents st (Event.streamWrite txt :: rest) =
          applyEvents (writeStream st txt) rest := rfl
      have hw : writeStream st txt = { st with consoleOut := st.consoleOut ++ txt } := by
        unfold writeStream
        rw [h]
      obtain ⟨h1, h2, h3⟩ := ih { st with consoleOut := st.consoleOut ++ txt } h
      rw [hstep, hw]
      refine ⟨h1, ?_, h3⟩
      rw [h2]
      show st.consoleOut ++ txt ++ sinkText rest =
        st.consoleOut ++ sinkText (Event.streamWrite txt :: rest)
      rw [String.append_assoc]
      rfl
    | lockAcquire => exact ih st h
    | lockRelease => exact ih st h
    | callbackInvoke lvl msg file line handled => exact ih st h
    | setColor c => exact ih st h
    | platformLog p tag msg => exact ih st h
    | flush => exact ih st h

theorem applyEvents_file (tr : List Event) :
    ∀ (st : SinkState) (p : String), st.fileOpenPath = some p →
    (applyEvents st tr).fileOpenPath = some p ∧
    (applyEvents st tr).consoleOut = st.consoleOut ∧
    (applyEvents st tr).fileContents p = st.fileContents p ++ sinkText tr ∧
    (∀ q, q ≠ p → (applyEvents st tr).fileContents q = st.fileContents q) := by
  induction tr with
  | nil =>
    intro st p h
    exact ⟨h, rfl, (String.append_empty (st.fileContents p)).symm, fun q _ => rfl⟩
  | cons e rest ih =>
    intro st p h
    cases e with
    | streamWrite txt =>
      have hstep : applyEvents st (Event.streamWrite txt :: rest) =
          applyEvents (writeStream st txt) rest := rfl
      have hw : writeStream st txt =
          { st with fileContents :=
              fun q => if q = p then st.fileContents p ++ txt else st.fileContents q } := by
        unfold writeStream
        rw [h]
      obtain ⟨h1, h2, h3, h4⟩ :=
        ih { st with fileContents :=
              fun q => if q = p then st.fileContents p ++ txt else st.fileContents q } p h
      rw [hstep, hw]
      refine ⟨h1, h2, ?_, ?_⟩
      · rw [h3]
        simp [sinkText, sinkWrites, concatAll, String.append_assoc]
      · intro q hq
        rw [h4 q hq]
        simp [hq]
    | lockAcquire => exact ih st p h
    | lockRelease => exact ih st p h
    | callbackInvoke lvl msg file line handled => exact ih st p h
    | setColor c => exact ih st p h
    | platformLog pr tag msg => exact ih st p h
    | flush => exact ih st p h

/-- A fresh sink state: no file open, empty console, all files empty;
only `"good.log"` can be opened. -/
def emptySink : SinkState := ⟨none, fun _ => "", ["good.log"], ""⟩

/-- Claim C4: when no file is open and the path cannot be opened,
`set_log_file` writes the failure notice to the console, the sink stays
on the console, and a subsequent dispatch still appends its full line to
the console while every file's contents are untouched. -/
theorem c4_failed_open_falls_back_to_console :
    ∀ (st : SinkState) (file_path : String) (r : LogDetailed) (hh mm ss : Nat),
    st.fileOpenPath = none → file_path ∉ st.writable →
    (set_log_file st file_path).fileOpenPath = none ∧
    (set_log_file st file_path).consoleOut =
      st.consoleOut ++ failNotice file_path ++ openNotice file_path ∧
    get_log_stream (set_log_file st file_path) = StreamRef.console ∧
    (applyEvents (set_log_file st file_path) (destructorTrace none false r hh mm ss)).consoleOut =
      (set_log_file st file_path).consoleOut ++
        sinkText (destructorTrace none false r hh mm ss) ∧
    (applyEvents (set_log_file st file_path) (destructorTrace none false r hh mm ss)).fileContents =
      st.fileContents := by
  intro st file_path r hh mm ss h hw
  have h1 : (set_log_file st file_path).fileOpenPath = none := by
    simp [set_log_file, h, hw]
  have h2 : (set_log_file st file_path).consoleOut =
      st.consoleOut ++ failNotice file_path ++ openNotice file_path := by
    simp [set_log_file, h, hw]
  have h3 : (set_log_file st file_path).fileContents = st.fileContents := by
    simp [set_log_file, h, hw]
  obtain ⟨g1, g2, g3⟩ :=
    applyEvents_console (destructorTrace none false r hh mm ss) (set_log_file st file_path) h1
  refine ⟨h1, h2, ?_, g2, ?_⟩
  · simp [get_log_stream, h1]
  · rw [g3, h3]

/-- Witness for C4: opening the unwritable `"bad.log"` on a fresh
console sink fails, reports the failure, and a subsequent dispatch of
`engineRecord` still lands on the console. -/
theorem c4_failed_open_falls_back_to_console_witness :
    (set_log_file emptySink "bad.log").fileOpenPath = none ∧
    (set_log_file emptySink "bad.log").consoleOut =
      emptySink.consoleOut ++ failNotice "bad.log" ++ openNotice "bad.log" ∧
    get_log_stream (set_log_file emptySink "bad.log") = StreamRef.console ∧
    (applyEvents (set_log_file emptySink "bad.log")
        (destructorTrace none false engineRecord 10 30 0)).consoleOut =
      (set_log_file emptySink "bad.log").consoleOut ++
        sinkText (destructorTrace none false engineRecord 10 30 0) ∧
    (applyEvents (set_log_file emptySink "bad.log")
        (destructorTrace none false engineRecord 10 30 0)).fileContents =
      emptySink.fileContents :=
  c4_failed_open_falls_back_to_console emptySink "bad.log" engineRecord 10 30 0 rfl (by decide)

/-- Claim C5: a successful `set_log_file` opens the path in append mode
(no file content is truncated), the file becomes the active sink
(`get_log_stream` returns the file whenever one is open and the console
otherwise), and a subsequent dispatch appends exactly its sink text —
the same text the console branch would receive — to that file, leaving
the console untouched. -/
theorem c5_successful_open_redirects_to_file :
    ∀ (st : SinkState) (file_path : String) (r : LogDetailed) (hh mm ss : Nat),
    st.fileOpenPath = none → file_path ∈ st.writable →
    (set_log_file st file_path).fileOpenPath = some file_path ∧
    (set_log_file st file_path).fileContents = st.fileContents ∧
    get_log_stream (set_log_file st file_path) = StreamRef.file file_path ∧
    (∀ st2 : SinkState,
      (∀ q, st2.fileOpenPath = some q → get_log_stream st2 = StreamRef.file q) ∧
      (st2.fileOpenPath = none → get_log_stream st2 = StreamRef.console)) ∧
    (applyEvents (set_log_file st file_path)
        (destructorTrace none false r hh mm ss)).fileContents file_path =
      st.fileContents file_path ++ sinkText (destructorTrace none false r hh mm ss) ∧
    (applyEvents (set_log_file st file_path)
        (destructorTrace none false r hh mm ss)).consoleOut =
      (set_log_file st file_path).consoleOut := by
  intro st file_path r hh mm ss h hw
  have h1 : (set_log_file st file_path).fileOpenPath = some file_path := by
    simp [set_log_file, h, hw]
  have h2 : (set_log_file st file_path).fileContents = st.fileContents := by
    simp [set_log_file, h, hw]
  obtain ⟨g1, g2, g3, g4⟩ :=
    applyEvents_file (destructorTrace none false r hh mm ss) (set_log_file st file_path)
      file_path h1
  refine ⟨h1, h2, ?_, ?_, ?_, g2⟩
  · simp [get_log_stream, h1]
  · intro st2
    constructor
    · intro q hq
      simp [get_log_stream, hq]
    · intro hq
      simp [get_log_stream, hq]
  · rw [g3, h2]

/-- Witness for C5: opening the writable `"good.log"` on a fresh console
sink makes it the active sink, and dispatching `engineRecord` appends
the formatted line to it. -/
theorem c5_successful_open_redirects_to_file_witness :
    (set_log_file emptySink "good.log").fileOpenPath = some "good.log" ∧
    (set_log_file emptySink "good.log").fileContents = emptySink.fileContents ∧
    get_log_stream (set_log_file emptySink "good.log") = StreamRef.file "good.log" ∧
    (∀ st2 : SinkState,
      (∀ q, st2.fileOpenPath = some q → get_log_stream st2 = StreamRef.file q) ∧
      (st2.fileOpenPath = none → get_log_stream st2 = StreamRef.console)) ∧
    (applyEvents (set_log_file emptySink "good.log")
        (destructorTrace none false engineRecord 10 30 0)).fileContents "good.log" =
      emptySink.fileContents "good.log" ++
        sinkText (destructorTrace none false engineRecord 10 30 0) ∧
    (applyEvents (set_log_file emptySink "good.log")
        (destructorTrace none false engineRecord 10 30 0)).consoleOut =
      (set_log_file emptySink "good.log").consoleOut :=
  c5_successful_open_redirects_to_file emptySink "good.log" engineRecord 10 30 0 rfl (by decide)

theorem set_log_file_preserves_open (st : SinkState) (p q : String)
    (h : st.fileOpenPath = some p) : (set_log_file st q).fileOpenPath = some p := by
  simp [set_log_file, h]

/-- A sink state whose log file `"a.log"` is already open; `"b.log"` is
perfectly openable by the environment. -/
def openedSink : SinkState := ⟨some "a.log", fun _ => "", ["a.log", "b.log"], ""⟩

/-- Claim C8: once a file has been opened, every later `set_log_file`
call fails to change it — `std::ofstream::open` on an open stream fails
and keeps the first file open — so the first file remains the active
sink after any sequence of further calls, and the sink never returns to
the console. -/
theorem c8_first_opened_file_is_permanent :
    ∀ (st : SinkState) (p : String), st.fileOpenPath = some p →
    (∀ q, (set_log_file st q).fileOpenPath = some p) ∧
    (∀ paths : List String,
      (List.foldl set_log_file st paths).fileOpenPath = some p ∧
      get_log_stream (List.foldl set_log_file st paths) = StreamRef.file p) := by
  intro st p h
  have hfold : ∀ (l : List String) (st0 : SinkState), st0.fileOpenPath = some p →
      (List.foldl set_log_file st0 l).fileOpenPath = some p := by
    intro l
    induction l with
    | nil => intro st0 h0; simpa using h0
    | cons a rest ih =>
      intro st0 h0
      exact ih (set_log_file st0 a) (set_log_file_preserves_open st0 p a h0)
  refine ⟨fun q => set_log_file_preserves_open st p q h, fun paths => ?_⟩
  have h1 := hfold paths st h
  exact ⟨h1, by simp [get_log_stream, h1]⟩

/-- Witness for C8: with `"a.log"` open, calling `set_log_file` with
`"b.log"` and then `"c.log"` leaves `"a.log"` the active sink. -/
theorem c8_first_opened_file_is_permanent_witness :
    (set_log_file openedSink "b.log").fileOpenPath = some "a.log" ∧
    (List.foldl set_log_file openedSink ["b.log", "c.log"]).fileOpenPath = some "a.log" ∧
    get_log_stream (List.foldl set_log_file openedSink ["b.log", "c.log"]) =
      StreamRef.file "a.log" :=
  ⟨(c8_first_opened_file_is_permanent openedSink "a.log" rfl).1 "b.log",
   (c8_first_opened_file_is_permanent openedSink "a.log" rfl).2 ["b.log", "c.log"]⟩

/-- Counterexample to claim C9: when `"a.log"` is already open, the call
`set_log_file(openedSink, "b.log")` fails to open `"b.log"` (the sink
stays on `"a.log"`), yet the console receives only the
`"Opened log file: b.log"` notice — the failure notice is not printed,
because the code tests `!log_file.is_open()` and the old file is still
open.  So it is not the case that every failing call prints both
notices. -/
theorem c9_failed_reopen_prints_only_success_notice :
    (set_log_file openedSink "b.log").fileOpenPath = some "a.log" ∧
    (set_log_file openedSink "b.log").fileOpenPath ≠ some "b.log" ∧
    (set_log_file openedSink "b.log").consoleOut = openNotice "b.log" ∧
    (set_log_file openedSink "b.log").consoleOut ≠
      openedSink.consoleOut ++ failNotice "b.log" ++ openNotice "b.log" := by
  refine ⟨by decide, by decide, by decide, by decide⟩

/-- Claim C9 as amended: every `set_log_file` call appends the
`"Opened log file: <path>"` notice to the console, preceded by the
`"Failed to open log file: <path>"` notice exactly when the stream was
not already open and the path cannot be opened; a failure caused by an
already-open stream prints the success notice alone. -/
theorem c9_amended_success_notice_on_every_call :
    ∀ (st : SinkState) (file_path : String),
    (set_log_file st file_path).consoleOut =
      st.consoleOut ++
        (if st.fileOpenPath = none ∧ file_path ∉ st.writable then failNotice file_path
         else "") ++
        openNotice file_path := by
  intro st file_path
  by_cases h : st.fileOpenPath = none
  · by_cases hw : file_path ∈ st.writable
    · simp [set_log_file, h, hw, String.append_empty]
    · simp [set_log_file, h, hw]
  · obtain ⟨p, hp⟩ := Option.ne_none_iff_exists'.mp h
    simp [set_log_file, hp, String.append_empty]
